import Mathlib

set_option maxRecDepth 100000

/-!
Verification of the live-connection hub of the kabarin chat backend
(`server/internal/websocket/{hub,client,events}.go`).

The Go code is embedded shallowly:
* the event model of `events.go` becomes plain inductive records
  (`EventType` is a string type in Go, so it stays `String` here);
* a Go channel `chan []byte` with capacity 256 becomes a `ChanState`:
  a list of queued frames plus a closed flag.  Go channel semantics are
  kept: closing a closed channel panics, and a `select` with a send case
  on a closed channel executes that case and panics;
* the hub becomes a `HubState` record threaded through the operations.
  `sync.RWMutex` is modelled for sequential execution: acquiring the
  write lock while it is held, or a read lock while the write lock is
  held, blocks forever (`ExecStatus.deadlocked`); a runtime panic is
  `ExecStatus.panicked`.  Once the status is not `ok` no further effect
  happens (the goroutine is stuck or the process is crashing);
* `json.Marshal` never fails on the payload records of `events.go`
  (they are plain strings/bools/timestamps), so serialization is the
  injective identity encoding wrapped in `Except` to keep the fallible
  shape of the Go API;
* the database is split into an `Env` (the read-only `contacts` and
  `group_members` tables queried by the hub) and the `online` flags the
  hub writes into the `users` table.
-/

namespace Kabarin

/-! ### Association lists (the shallow model of Go maps) -/

/-- Lookup in an association list: `m[k]` of a Go map. -/
def afind {κ ν : Type} [DecidableEq κ] (k : κ) : List (κ × ν) → Option ν
  | [] => none
  | (k₂, v) :: t => if k₂ = k then some v else afind k t

/-- Insertion `m[k] = v` of a Go map: replace the entry if the key is
present, append otherwise. -/
def aput {κ ν : Type} [DecidableEq κ] (k : κ) (v : ν) : List (κ × ν) → List (κ × ν)
  | [] => [(k, v)]
  | (k₂, v₂) :: t => if k₂ = k then (k, v) :: t else (k₂, v₂) :: aput k v t

/-- Deletion `delete(m, k)` of a Go map.  A Go map holds at most one
entry per key, so removing every entry with the key is the same
operation. -/
def aerase {κ ν : Type} [DecidableEq κ] (k : κ) (l : List (κ × ν)) : List (κ × ν) :=
  l.filter (fun p => p.1 ≠ k)

/-- Number of entries an association list holds for a key. -/
def akeyCount {κ ν : Type} [DecidableEq κ] (k : κ) (l : List (κ × ν)) : Nat :=
  (l.filter (fun p => p.1 = k)).length

/-! ### Event model (`events.go`) -/

/-- Go declares `type EventType string`: any string is a value of the
type, the named constants below are the ones the code uses. -/
abbrev EventType := String

def EventConnect : EventType := "connect"

def EventDisconnect : EventType := "disconnect"

def EventMessageSent : EventType := "message_sent"

def EventMessageDelivered : EventType := "message_delivered"

def EventMessageRead : EventType := "message_read"

def EventMessageReceived : EventType := "message_received"

def EventGroupMessageSent : EventType := "group_message_sent"

def EventGroupMessageReceived : EventType := "group_message_received"

def EventTypingStart : EventType := "typing_start"

def EventTypingStop : EventType := "typing_stop"

def EventUserOnline : EventType := "user_online"

def EventUserOffline : EventType := "user_offline"

def EventError : EventType := "error"

/-- Timestamps (`time.Time`), abstracted to a counter. -/
abbrev Time := Nat

/-- `MessagePayload` of `events.go`. -/
structure MessagePayload where
  id : String
  chatID : String
  senderID : String
  receiverID : String
  content : String
  msgType : String
  status : String
  createdAt : Time
deriving DecidableEq, Repr

/-- `GroupMessagePayload` of `events.go`. -/
structure GroupMessagePayload where
  id : String
  groupID : String
  senderID : String
  content : String
  msgType : String
  createdAt : Time
deriving DecidableEq, Repr

/-- `TypingPayload` of `events.go`. -/
structure TypingPayload where
  userID : String
  chatID : String
  groupID : String
  userName : String
deriving DecidableEq, Repr

/-- `PresencePayload` of `events.go`. -/
structure PresencePayload where
  userID : String
  isOnline : Bool
  lastSeen : Time
deriving DecidableEq, Repr

/-- `MessageStatusPayload` of `events.go`. -/
structure MessageStatusPayload where
  messageID : String
  status : String
  updatedAt : Time
deriving DecidableEq, Repr

/-- `ErrorPayload` of `events.go`. -/
structure ErrorPayload where
  code : String
  message : String
deriving DecidableEq, Repr

/-- The payload variants the server ever places in a `WSMessage`
(`Payload interface{}` in Go, but every construction site uses one of
the record types of `events.go`). -/
inductive Payload where
  | message (p : MessagePayload)
  | groupMessage (p : GroupMessagePayload)
  | typing (p : TypingPayload)
  | presence (p : PresencePayload)
  | messageStatus (p : MessageStatusPayload)
  | errorInfo (p : ErrorPayload)
deriving DecidableEq, Repr

/-- `WSMessage` of `events.go`: the outbound envelope. -/
structure WSMessage where
  type : EventType
  payload : Payload
  timestamp : Time
deriving DecidableEq, Repr

/-- The bytes `json.Marshal` produces for an envelope.  The encoding is
injective and the decoded form is kept. -/
abbrev WireData := WSMessage

/-- `json.Marshal` on a `WSMessage`.  Every payload variant of
`events.go` is a record of strings, booleans and timestamps, all of
which serialize, so the call always succeeds; the `Except` wrapper keeps
the fallible shape of the Go API. -/
def marshalWS (m : WSMessage) : Except String WireData := .ok m

/-- A JSON value inside an inbound `map[string]interface{}` payload:
either a string or some other shape. -/
inductive JValue where
  | str (s : String)
  | other
deriving DecidableEq, Repr

/-- `IncomingMessage` of `events.go`: the inbound envelope, with an open
key-value payload. -/
structure IncomingMessage where
  type : EventType
  payload : List (String × JValue)
deriving DecidableEq, Repr

/-- The Go idiom `v, _ := payload[k].(string)`: the string under key
`k`, or `""` when the key is absent or not a string. -/
def asString (payload : List (String × JValue)) (k : String) : String :=
  match afind k payload with
  | some (.str s) => s
  | _ => ""

/-! ### Client objects and channel state (`client.go`) -/

/-- `Client` of `client.go`.  `cid` is the object identity (the pointer
value): two distinct Client objects have distinct `cid`, even for the
same user id.  The channel and socket state live outside the record. -/
structure Client where
  cid : Nat
  id : String
  uniqueID : String
deriving DecidableEq, Repr

/-- Capacity of the outbound buffer: `make(chan []byte, 256)` in
`NewClient`. -/
def chanCap : Nat := 256

/-- State of one `chan []byte`: the queued frames and whether the
channel has been closed. -/
structure ChanState where
  buf : List WireData
  closed : Bool
deriving DecidableEq, Repr

/-- The channel a fresh `NewClient` carries: empty, open. -/
def newChan : ChanState := { buf := [], closed := false }

/-! ### Hub state (`hub.go`) -/

/-- Whether execution is still running normally, has hit a Go runtime
panic, or is blocked forever on the hub lock. -/
inductive ExecStatus where
  | ok
  | panicked
  | deadlocked
deriving DecidableEq, Repr

/-- The mutable state the hub operations touch: the `Clients` map, the
channel state of every Client object (keyed by `cid`), the `is_online`
flags the hub writes to the `users` table, the hub's `sync.RWMutex`
write lock, and the execution status. -/
structure HubState where
  clients : List (String × Client)
  chans : List (Nat × ChanState)
  online : List (String × Bool)
  writeLocked : Bool
  status : ExecStatus
deriving DecidableEq, Repr

/-- The read-only tables the hub queries: `contacts` rows
`(user_id, contact_id)` and `group_members` rows `(group_id, user_id)`. -/
structure Env where
  contacts : List (String × String)
  groupMembers : List (String × String)
deriving DecidableEq, Repr

/-- The contact query of `broadcastPresence`:
`SELECT user_id FROM contacts WHERE contact_id = $1 UNION SELECT
contact_id FROM contacts WHERE user_id = $1` (`UNION` removes
duplicates). -/
def contactsOf (env : Env) (u : String) : List String :=
  (((env.contacts.filter (fun r => r.2 = u)).map Prod.fst) ++
    ((env.contacts.filter (fun r => r.1 = u)).map Prod.snd)).dedup

/-- The member query of `BroadcastToGroup`:
`SELECT user_id FROM group_members WHERE group_id = $1`. -/
def membersOf (env : Env) (g : String) : List String :=
  (env.groupMembers.filter (fun r => r.1 = g)).map Prod.snd

/-- Channel state of a Client object inside the hub state. -/
def getChan (s : HubState) (cid : Nat) : ChanState :=
  (afind cid s.chans).getD newChan

/-- Replace the channel state of one Client object. -/
def setChan (s : HubState) (cid : Nat) (ch : ChanState) : HubState :=
  { s with chans := aput cid ch s.chans }

/-- `close(ch)`: closing an already-closed Go channel panics. -/
def closeChan (s : HubState) (cid : Nat) : HubState :=
  if (getChan s cid).closed then { s with status := .panicked }
  else setChan s cid { getChan s cid with closed := true }

/-- `select { case ch <- d: default: }`: a send case on a closed channel
is ready and panics when executed; on an open full channel the `default`
branch runs and the frame is dropped; otherwise the frame is queued. -/
def trySend (s : HubState) (cid : Nat) (d : WireData) : HubState :=
  if (getChan s cid).closed then { s with status := .panicked }
  else if (getChan s cid).buf.length < chanCap then
    setChan s cid { getChan s cid with buf := (getChan s cid).buf ++ [d] }
  else s

/-- `UPDATE users SET is_online = $b, last_seen = now WHERE id = $u`. -/
def setOnlineFlag (s : HubState) (u : String) (b : Bool) : HubState :=
  { s with online := aput u b s.online }

/-! ### Hub operations (`hub.go`) -/

/-- The presence envelope `broadcastPresence` constructs. -/
def presenceMessage (userID : String) (isOnline : Bool) (now : Time) : WSMessage :=
  { type := if isOnline then EventUserOnline else EventUserOffline
    payload := .presence { userID := userID, isOnline := isOnline, lastSeen := now }
    timestamp := now }

/-- One iteration of the contact loop of `broadcastPresence`:
`h.mu.RLock()` — which blocks forever when the caller already holds the
write lock — then a map lookup and a non-blocking send, then
`h.mu.RUnlock()`. -/
def sendPresenceTo (s : HubState) (d : WireData) (contactID : String) : HubState :=
  if s.status ≠ .ok then s
  else if s.writeLocked then { s with status := .deadlocked }
  else
    match afind contactID s.clients with
    | some client => trySend s client.cid d
    | none => s

/-- `broadcastPresence` of `hub.go`: query the contacts, build and
marshal the presence envelope, then push it to each connected contact. -/
def broadcastPresence (env : Env) (s : HubState) (userID : String) (isOnline : Bool)
    (now : Time) : HubState :=
  match marshalWS (presenceMessage userID isOnline now) with
  | .error _ => s
  | .ok d => (contactsOf env userID).foldl (fun s₂ c => sendPresenceTo s₂ d c) s

/-- `registerClient` of `hub.go`: take the write lock, close the buffer
of an existing Client under the same user id, install the new Client,
mark the user online in the store, broadcast presence, release the lock
(the deferred unlock is not reached when the goroutine deadlocks). -/
def registerClient (env : Env) (s : HubState) (c : Client) (now : Time) : HubState :=
  if s.status ≠ .ok then s
  else if s.writeLocked then { s with status := .deadlocked }
  else
    let s₁ := { s with writeLocked := true }
    let s₂ := match afind c.id s₁.clients with
      | some existing => closeChan s₁ existing.cid
      | none => s₁
    if s₂.status ≠ .ok then s₂
    else
      let s₃ := { s₂ with clients := aput c.id c s₂.clients }
      let s₄ := setOnlineFlag s₃ c.id true
      let s₅ := broadcastPresence env s₄ c.id true now
      if s₅.status ≠ .ok then s₅
      else { s₅ with writeLocked := false }

/-- `unregisterClient` of `hub.go`: take the write lock; if the map
holds any entry under `c.id` — no identity comparison with `c` — delete
that entry, close `c`'s own channel, mark the user offline, broadcast
presence; release the lock. -/
def unregisterClient (env : Env) (s : HubState) (c : Client) (now : Time) : HubState :=
  if s.status ≠ .ok then s
  else if s.writeLocked then { s with status := .deadlocked }
  else
    let s₁ := { s with writeLocked := true }
    match afind c.id s₁.clients with
    | none => { s₁ with writeLocked := false }
    | some _ =>
      let s₂ := { s₁ with clients := aerase c.id s₁.clients }
      let s₃ := closeChan s₂ c.cid
      if s₃.status ≠ .ok then s₃
      else
        let s₄ := setOnlineFlag s₃ c.id false
        let s₅ := broadcastPresence env s₄ c.id false now
        if s₅.status ≠ .ok then s₅
        else { s₅ with writeLocked := false }

/-- `BroadcastToUser` of `hub.go`: take the read lock, look the user up,
and only when present marshal the envelope and push it non-blockingly. -/
def BroadcastToUser (s : HubState) (userID : String) (message : WSMessage) : HubState :=
  if s.status ≠ .ok then s
  else if s.writeLocked then { s with status := .deadlocked }
  else
    match afind userID s.clients with
    | none => s
    | some client =>
      match marshalWS message with
      | .error _ => s
      | .ok d => trySend s client.cid d

/-- The per-user body of the loop of `BroadcastToUsers`. -/
def sendToUser (d : WireData) (s : HubState) (userID : String) : HubState :=
  if s.status ≠ .ok then s
  else
    match afind userID s.clients with
    | some client => trySend s client.cid d
    | none => s

/-- `BroadcastToUsers` of `hub.go`: marshal once, take the read lock,
push to every listed user that is connected. -/
def BroadcastToUsers (s : HubState) (userIDs : List String) (message : WSMessage) :
    HubState :=
  match marshalWS message with
  | .error _ => s
  | .ok d =>
    if s.status ≠ .ok then s
    else if s.writeLocked then { s with status := .deadlocked }
    else userIDs.foldl (sendToUser d) s

/-- The per-member body of the loop of `BroadcastToGroup`: skip the
excluded sender, push to the member when connected. -/
def sendToMember (d : WireData) (excludeUserID : String) (s : HubState) (userID : String) :
    HubState :=
  if s.status ≠ .ok then s
  else if userID = excludeUserID then s
  else
    match afind userID s.clients with
    | some client => trySend s client.cid d
    | none => s

/-- `BroadcastToGroup` of `hub.go`: query the member list, marshal once,
take the read lock, push to every member except the excluded one. -/
def BroadcastToGroup (env : Env) (s : HubState) (groupID : String) (message : WSMessage)
    (excludeUserID : String) : HubState :=
  match marshalWS message with
  | .error _ => s
  | .ok d =>
    if s.status ≠ .ok then s
    else if s.writeLocked then { s with status := .deadlocked }
    else (membersOf env groupID).foldl (sendToMember d excludeUserID) s

/-- `IsUserOnline` of `hub.go`. -/
def IsUserOnline (s : HubState) (userID : String) : Bool :=
  (afind userID s.clients).isSome

/-! ### Client operations (`client.go`) -/

/-- Result of `Client.SendMessage`: the updated channel, whether an
unregister request was pushed into the hub intake, the returned error,
and whether the call panicked (send on a closed channel). -/
structure SendOutcome where
  chan : ChanState
  unregRequested : Bool
  err : Option String
  panicked : Bool
deriving DecidableEq, Repr

/-- `SendMessage` of `client.go`: marshal (returning the error on
failure); then `select { case c.Send <- data: default: close(c.Send);
c.Hub.Unregister <- c }`; the function returns `nil` on both paths. -/
def SendMessage (ch : ChanState) (msg : WSMessage) : SendOutcome :=
  match marshalWS msg with
  | .error e => { chan := ch, unregRequested := false, err := some e, panicked := false }
  | .ok d =>
    if ch.closed then { chan := ch, unregRequested := false, err := none, panicked := true }
    else if ch.buf.length < chanCap then
      { chan := { ch with buf := ch.buf ++ [d] }, unregRequested := false, err := none,
        panicked := false }
    else
      { chan := { ch with closed := true }, unregRequested := true, err := none,
        panicked := false }

/-- `handleTypingStart` of `client.go`: read `chatId`/`groupId` from the
wire payload, build the typing envelope with the Client's own identity,
and route it through the hub. -/
def handleTypingStart (env : Env) (s : HubState) (c : Client)
    (payload : List (String × JValue)) (now : Time) : HubState :=
  let chatID := asString payload "chatId"
  let groupID := asString payload "groupId"
  let message : WSMessage :=
    { type := EventTypingStart
      payload := .typing { userID := c.id, chatID := chatID, groupID := groupID, userName := "" }
      timestamp := now }
  if groupID ≠ "" then BroadcastToGroup env s groupID message c.id
  else if chatID ≠ "" then BroadcastToUsers s [chatID] message
  else s

/-- `handleTypingStop` of `client.go`: identical to `handleTypingStart`
with the stop event type. -/
def handleTypingStop (env : Env) (s : HubState) (c : Client)
    (payload : List (String × JValue)) (now : Time) : HubState :=
  let chatID := asString payload "chatId"
  let groupID := asString payload "groupId"
  let message : WSMessage :=
    { type := EventTypingStop
      payload := .typing { userID := c.id, chatID := chatID, groupID := groupID, userName := "" }
      timestamp := now }
  if groupID ≠ "" then BroadcastToGroup env s groupID message c.id
  else if chatID ≠ "" then BroadcastToUsers s [chatID] message
  else s

/-- `handleIncomingMessage` of `client.go`: dispatch on the event type;
anything other than the two typing events is logged and ignored. -/
def handleIncomingMessage (env : Env) (s : HubState) (c : Client) (m : IncomingMessage)
    (now : Time) : HubState :=
  if m.type = EventTypingStart then handleTypingStart env s c m.payload now
  else if m.type = EventTypingStop then handleTypingStop env s c m.payload now
  else s

/-- What the socket gives one iteration of `ReadPump`: a read failure,
or a data frame that either failed to decode (`frame none`) or decoded
to an inbound envelope. -/
inductive ReadInput where
  | readFailure
  | frame (decoded : Option IncomingMessage)
deriving DecidableEq, Repr

/-- Result of one iteration of `ReadPump`: the hub state afterwards and
whether the loop exited (entering the teardown path). -/
structure ReadStepResult where
  state : HubState
  exited : Bool
deriving DecidableEq, Repr

/-- One iteration of the loop of `ReadPump`: a read error breaks the
loop; a frame that fails `json.Unmarshal` is logged and skipped; a
decoded frame goes to `handleIncomingMessage`.  The connection stays
open in the two non-error cases. -/
def readPumpStep (env : Env) (s : HubState) (c : Client) (input : ReadInput) (now : Time) :
    ReadStepResult :=
  match input with
  | .readFailure => { state := s, exited := true }
  | .frame none => { state := s, exited := false }
  | .frame (some m) => { state := handleIncomingMessage env s c m now, exited := false }

/-! ### Association-list lemmas -/

theorem afind_aput_self {κ ν : Type} [DecidableEq κ] (k : κ) (v : ν) (l : List (κ × ν)) :
    afind k (aput k v l) = some v := by
  induction l with
  | nil => simp [aput, afind]
  | cons h t ih =>
    by_cases hk : h.1 = k
    · simp [aput, hk, afind]
    · simpa [aput, hk, afind] using ih

theorem afind_aput_ne {κ ν : Type} [DecidableEq κ] {k k₂ : κ} (v : ν) (l : List (κ × ν))
    (hne : k ≠ k₂) : afind k₂ (aput k v l) = afind k₂ l := by
  induction l with
  | nil => simp [aput, afind, hne]
  | cons h t ih =>
    obtain ⟨a, b⟩ := h
    by_cases hk : a = k
    · subst hk
      simp [aput, afind, hne]
    · by_cases hk₂ : a = k₂
      · subst hk₂
        simp [aput, afind, hk]
      · simp [aput, afind, hk, hk₂, ih]

theorem afind_aerase_self {κ ν : Type} [DecidableEq κ] (k : κ) (l : List (κ × ν)) :
    afind k (aerase k l) = none := by
  induction l with
  | nil => simp [aerase, afind]
  | cons h t ih =>
    by_cases hk : h.1 = k
    · simpa [aerase, hk, afind] using ih
    · simpa [aerase, hk, afind] using ih

theorem afind_mem {κ ν : Type} [DecidableEq κ] {k : κ} {v : ν} {l : List (κ × ν)}
    (h : afind k l = some v) : (k, v) ∈ l := by
  induction l with
  | nil => simp [afind] at h
  | cons hd t ih =>
    obtain ⟨a, b⟩ := hd
    by_cases hk : a = k
    · subst hk
      simp [afind] at h
      subst h
      exact List.mem_cons_self _ _
    · simp [afind, hk] at h
      exact List.mem_cons_of_mem _ (ih h)

theorem akeyCount_cons {κ ν : Type} [DecidableEq κ] (k : κ) (hd : κ × ν)
    (t : List (κ × ν)) :
    akeyCount k (hd :: t) = (if hd.1 = k then 1 else 0) + akeyCount k t := by
  by_cases hk : hd.1 = k <;> simp [akeyCount, List.filter_cons, hk, Nat.add_comm]

theorem akeyCount_le_one_of_nodup {κ ν : Type} [DecidableEq κ] (k : κ)
    {l : List (κ × ν)} (h : (l.map Prod.fst).Nodup) : akeyCount k l ≤ 1 := by
  induction l with
  | nil => simp [akeyCount]
  | cons hd t ih =>
    simp only [List.map_cons, List.nodup_cons] at h
    rw [akeyCount_cons]
    by_cases hk : hd.1 = k
    · have ht : akeyCount k t = 0 := by
        rw [akeyCount, List.length_eq_zero, List.filter_eq_nil_iff]
        intro p hp
        simp only [decide_eq_true_eq]
        intro hpk
        have hm : p.1 ∈ t.map Prod.fst := List.mem_map_of_mem Prod.fst hp
        rw [hpk, ← hk] at hm
        exact h.1 hm
      simp [hk, ht]
    · have := ih h.2
      simp only [hk, if_false]
      omega

theorem akeyCount_pos_of_afind {κ ν : Type} [DecidableEq κ] {k : κ} {v : ν}
    {l : List (κ × ν)} (h : afind k l = some v) : 0 < akeyCount k l := by
  induction l with
  | nil => simp [afind] at h
  | cons hd t ih =>
    obtain ⟨a, b⟩ := hd
    rw [akeyCount_cons]
    by_cases hk : a = k
    · simp [hk]
    · simp only [afind, hk, if_false] at h
      have := ih h
      simp only [hk, if_false]
      omega

theorem akeyCount_aput_pos {κ ν : Type} [DecidableEq κ] (k : κ) (v : ν)
    {l : List (κ × ν)} (h : 0 < akeyCount k l) :
    akeyCount k (aput k v l) = akeyCount k l := by
  induction l with
  | nil => simp [akeyCount] at h
  | cons hd t ih =>
    obtain ⟨a, b⟩ := hd
    by_cases hk : a = k
    · subst hk
      simp [aput, akeyCount_cons]
    · rw [akeyCount_cons] at h
      simp only [hk, if_false, Nat.zero_add] at h
      simp [aput, hk, akeyCount_cons, ih h]

/-! ### State-preservation lemmas for the hub operations -/

theorem getChan_setChan (s : HubState) (cid cid₂ : Nat) (ch : ChanState) :
    getChan (setChan s cid ch) cid₂ = if cid = cid₂ then ch else getChan s cid₂ := by
  by_cases h : cid = cid₂
  · subst h
    simp [getChan, setChan, afind_aput_self]
  · simp [getChan, setChan, afind_aput_ne _ _ h, h]

theorem trySend_clients (s : HubState) (cid : Nat) (d : WireData) :
    (trySend s cid d).clients = s.clients := by
  unfold trySend
  split
  · rfl
  · split <;> rfl

theorem sendPresenceTo_clients (s : HubState) (d : WireData) (u : String) :
    (sendPresenceTo s d u).clients = s.clients := by
  unfold sendPresenceTo
  split
  · rfl
  · split
    · rfl
    · split
      · exact trySend_clients ..
      · rfl

theorem presenceFold_clients (L : List String) (s : HubState) (d : WireData) :
    (L.foldl (fun s₂ c => sendPresenceTo s₂ d c) s).clients = s.clients := by
  induction L generalizing s with
  | nil => rfl
  | cons h t ih => rw [List.foldl_cons, ih, sendPresenceTo_clients]

theorem trySend_closed_preserved {s : HubState} {cid : Nat} (cid₂ : Nat) (d : WireData)
    (h : (getChan s cid).closed = true) : (getChan (trySend s cid₂ d) cid).closed = true := by
  unfold trySend
  split
  · exact h
  · split
    · rw [getChan_setChan]
      split
      · next heq =>
        rw [← heq] at h
        simp_all
      · exact h
    · exact h

theorem sendPresenceTo_closed_preserved {s : HubState} {cid : Nat} (d : WireData)
    (u : String) (h : (getChan s cid).closed = true) :
    (getChan (sendPresenceTo s d u) cid).closed = true := by
  unfold sendPresenceTo
  split
  · exact h
  · split
    · exact h
    · split
      · exact trySend_closed_preserved _ _ h
      · exact h

theorem presenceFold_closed_preserved {s : HubState} {cid : Nat} (L : List String)
    (d : WireData) (h : (getChan s cid).closed = true) :
    (getChan (L.foldl (fun s₂ c => sendPresenceTo s₂ d c) s) cid).closed = true := by
  induction L generalizing s with
  | nil => exact h
  | cons hd t ih => exact ih (sendPresenceTo_closed_preserved _ _ h)

theorem broadcastPresence_clients (env : Env) (s : HubState) (userID : String)
    (isOnline : Bool) (now : Time) :
    (broadcastPresence env s userID isOnline now).clients = s.clients := by
  unfold broadcastPresence marshalWS
  exact presenceFold_clients ..

theorem broadcastPresence_closed_preserved {s : HubState} {cid : Nat} (env : Env)
    (userID : String) (isOnline : Bool) (now : Time)
    (h : (getChan s cid).closed = true) :
    (getChan (broadcastPresence env s userID isOnline now) cid).closed = true := by
  unfold broadcastPresence marshalWS
  exact presenceFold_closed_preserved _ _ h

/-- When the hub map holds no entry for `c.id`, `unregisterClient` only
takes and releases the lock. -/
theorem unregisterClient_absent (env : Env) (s : HubState) (c : Client) (now : Time)
    (hok : s.status = .ok) (hlock : s.writeLocked = false)
    (hnone : afind c.id s.clients = none) :
    unregisterClient env s c now = { s with writeLocked := false } := by
  unfold unregisterClient
  rw [if_neg (show ¬ s.status ≠ ExecStatus.ok from by simp [hok]),
    if_neg (show ¬ s.writeLocked = true from by simp [hlock])]
  dsimp only
  rw [hnone]

/-- On a state whose execution is already stuck or crashed,
`unregisterClient` has no effect. -/
theorem unregisterClient_notOk (env : Env) (s : HubState) (c : Client) (now : Time)
    (h : s.status ≠ .ok) : unregisterClient env s c now = s := by
  unfold unregisterClient
  rw [if_pos (show s.status ≠ ExecStatus.ok from h)]

/-- When the hub map holds an entry for `c.id` — no matter which Client
object it points at — `unregisterClient` deletes it, and whenever the
run completes normally the lock is released. -/
theorem unregisterClient_found (env : Env) (s : HubState) (c cOld : Client) (now : Time)
    (hok : s.status = .ok) (hlock : s.writeLocked = false)
    (hfind : afind c.id s.clients = some cOld) :
    (unregisterClient env s c now).clients = aerase c.id s.clients ∧
    ((unregisterClient env s c now).status = .ok →
      (unregisterClient env s c now).writeLocked = false) := by
  unfold unregisterClient
  rw [if_neg (show ¬ s.status ≠ ExecStatus.ok from by simp [hok]),
    if_neg (show ¬ s.writeLocked = true from by simp [hlock])]
  dsimp only
  rw [hfind]
  dsimp only
  set s₂ : HubState := { s with clients := aerase c.id s.clients, writeLocked := true }
    with hs₂
  have h2ch : getChan s₂ c.cid = getChan s c.cid := rfl
  unfold closeChan
  rw [h2ch]
  dsimp only
  by_cases hcl : (getChan s c.cid).closed = true
  · rw [if_pos hcl]
    simp [hs₂]
  · rw [if_neg hcl]
    rw [if_neg (show ¬ (setChan s₂ c.cid
      { buf := (getChan s c.cid).buf, closed := true }).status ≠ ExecStatus.ok from by
        simp only [ne_eq, not_not]
        exact hok)]
    split
    · next hbad =>
      refine ⟨?_, fun h => absurd h hbad⟩
      rw [broadcastPresence_clients]
      simp [setOnlineFlag, setChan, hs₂]
    · refine ⟨?_, fun _ => rfl⟩
      dsimp only
      rw [broadcastPresence_clients]
      simp [setOnlineFlag, setChan, hs₂]

/-- When the hub map holds an entry for `c.id` and `c`'s own channel is
open, `unregisterClient` closes `c`'s channel. -/
theorem unregisterClient_found_closes (env : Env) (s : HubState) (c cOld : Client)
    (now : Time) (hok : s.status = .ok) (hlock : s.writeLocked = false)
    (hfind : afind c.id s.clients = some cOld)
    (hopen : (getChan s c.cid).closed = false) :
    (getChan (unregisterClient env s c now) c.cid).closed = true := by
  unfold unregisterClient
  rw [if_neg (show ¬ s.status ≠ ExecStatus.ok from by simp [hok]),
    if_neg (show ¬ s.writeLocked = true from by simp [hlock])]
  dsimp only
  rw [hfind]
  dsimp only
  set s₂ : HubState := { s with clients := aerase c.id s.clients, writeLocked := true }
    with hs₂
  have h2ch : getChan s₂ c.cid = getChan s c.cid := rfl
  unfold closeChan
  rw [h2ch]
  dsimp only
  rw [if_neg (show ¬ (getChan s c.cid).closed = true from by simp [hopen])]
  rw [if_neg (show ¬ (setChan s₂ c.cid
    { buf := (getChan s c.cid).buf, closed := true }).status ≠ ExecStatus.ok from by
      simp only [ne_eq, not_not]
      exact hok)]
  have hclosed : (getChan (setOnlineFlag (setChan s₂ c.cid
      { buf := (getChan s c.cid).buf, closed := true }) c.id false) c.cid).closed = true := by
    have : getChan (setOnlineFlag (setChan s₂ c.cid
        { buf := (getChan s c.cid).buf, closed := true }) c.id false) c.cid
        = getChan (setChan s₂ c.cid
          { buf := (getChan s c.cid).buf, closed := true }) c.cid := rfl
    rw [this, getChan_setChan, if_pos rfl]
  split
  · exact broadcastPresence_closed_preserved _ _ _ _ hclosed
  · exact broadcastPresence_closed_preserved _ _ _ _ hclosed

/-! ### Concrete sample data used by witnesses and counterexamples -/

/-- A sample outbound envelope. -/
def sampleMsg : WSMessage :=
  { type := EventMessageSent
    payload := .errorInfo { code := "x", message := "boom" }
    timestamp := 0 }

/-- A first Client object for user `"u"`. -/
def clientOld : Client := { cid := 1, id := "u", uniqueID := "#AA-1" }

/-- A second, distinct Client object for the same user `"u"`. -/
def clientNew : Client := { cid := 2, id := "u", uniqueID := "#AA-2" }

/-- A Client object for user `"v"`. -/
def clientV : Client := { cid := 3, id := "v", uniqueID := "#BB-1" }

/-- Empty `contacts` and `group_members` tables. -/
def emptyEnv : Env := { contacts := [], groupMembers := [] }

/-- A `contacts` row making `"u"` and `"v"` contacts of each other. -/
def envContactVU : Env := { contacts := [("v", "u")], groupMembers := [] }

/-- A `group_members` row: group `"g"` has the single member `"u"`. -/
def envGroupU : Env := { contacts := [], groupMembers := [("g", "u")] }

/-- A `group_members` table: group `"g"` has the two members `"u"` and
`"v"`. -/
def envGroupUV : Env := { contacts := [], groupMembers := [("g", "u"), ("g", "v")] }

/-- An outbound buffer filled to its capacity of 256, still open. -/
def fullChan : ChanState := { buf := List.replicate chanCap sampleMsg, closed := false }

/-- Hub state in which user `"u"` is registered through the newer Client
object `clientNew`; both Client objects hold fresh channels. -/
def stateNewRegistered : HubState :=
  { clients := [("u", clientNew)]
    chans := [(1, newChan), (2, newChan)]
    online := []
    writeLocked := false
    status := .ok }

/-- Hub state in which user `"u"` is registered with a full outbound
buffer. -/
def stateFullU : HubState :=
  { clients := [("u", clientOld)]
    chans := [(1, fullChan)]
    online := []
    writeLocked := false
    status := .ok }

/-- Hub state in which user `"u"` is registered and its buffer has
already been closed by the overflow branch of `SendMessage`. -/
def stateOverflowU : HubState :=
  { clients := [("u", clientOld)]
    chans := [(1, (SendMessage fullChan sampleMsg).chan)]
    online := []
    writeLocked := false
    status := .ok }

/-- Hub state in which only user `"v"` is registered, with a fresh
channel. -/
def stateVOnly : HubState :=
  { clients := [("v", clientV)]
    chans := [(3, newChan)]
    online := [("v", true)]
    writeLocked := false
    status := .ok }

/-- Hub state with user `"u"` registered behind a full open buffer and
user `"v"` registered behind a fresh buffer. -/
def stateMixed : HubState :=
  { clients := [("u", clientOld), ("v", clientV)]
    chans := [(1, fullChan), (3, newChan)]
    online := []
    writeLocked := false
    status := .ok }

/-! ### Claim theorems -/

/-- C1 counterexample.  The claim says `Unregister(c)` removes the map
entry for `c`'s user id only if the entry still points at exactly `c`.
In the code `unregisterClient` checks only `h.Clients[client.ID]`
existence, with no identity comparison: here the entry for `"u"` points
at `clientNew`, yet unregistering the distinct older object `clientOld`
deletes that entry (and closes `clientOld`'s buffer while leaving
`clientNew`'s buffer open but orphaned). -/
theorem unregister_no_identity_guard_cex :
    afind "u" stateNewRegistered.clients = some clientNew ∧
    clientNew ≠ clientOld ∧
    afind "u" (unregisterClient emptyEnv stateNewRegistered clientOld 5).clients = none ∧
    (getChan (unregisterClient emptyEnv stateNewRegistered clientOld 5) clientNew.cid).closed
      = false ∧
    (getChan (unregisterClient emptyEnv stateNewRegistered clientOld 5) clientOld.cid).closed
      = true := by
  refine ⟨rfl, by decide, rfl, rfl, rfl⟩

/-- C2: overflowing a full, undrained buffer through `SendMessage`
closes the buffer and signals one unregister request, but when the hub
then processes that request `unregisterClient` finds the map entry still
present and executes `close(client.Send)` a second time — in Go closing
a closed channel panics.  Evaluating the code on the failing input shows
the second close attempt (the `panicked` status) instead of the claimed
exactly-one close. -/
theorem send_overflow_double_close :
    (SendMessage fullChan sampleMsg).unregRequested = true ∧
    (SendMessage fullChan sampleMsg).chan.closed = true ∧
    (SendMessage fullChan sampleMsg).err = none ∧
    (unregisterClient emptyEnv stateOverflowU clientOld 5).status = .panicked := by
  refine ⟨rfl, rfl, rfl, rfl⟩

/-- C4 counterexample.  The claim says `BroadcastToUser(U, e)` delivers
`e` to U's buffer if and only if U is present in the registry.  Here
`"u"` is present but its open buffer already holds 256 frames, so the
non-blocking push takes the `default` branch and the whole state is
unchanged: present, yet nothing delivered. -/
theorem broadcast_user_full_buffer_cex :
    afind "u" stateFullU.clients = some clientOld ∧
    BroadcastToUser stateFullU "u" sampleMsg = stateFullU := by
  refine ⟨rfl, rfl⟩

/-- C6 counterexample.  The claim says `BroadcastToGroup(G, e, S)`
delivers `e` to the buffer of every currently-registered member of G
other than S.  Here `"u"` is a registered member of `"g"`, distinct from
the excluded `"z"`, but its open buffer is full, so the non-blocking
push drops the frame and the state is unchanged. -/
theorem broadcast_group_full_buffer_cex :
    membersOf envGroupU "g" = ["u"] ∧
    afind "u" stateFullU.clients = some clientOld ∧
    BroadcastToGroup envGroupU stateFullU "g" sampleMsg "z" = stateFullU := by
  refine ⟨rfl, rfl, rfl⟩

/-- C8: the claim (and the spec) says every currently-online contact of
a registering user receives a `user-online` event.  The code cannot
deliver it: `registerClient` holds the hub's write lock for its whole
body and `broadcastPresence` then acquires `h.mu.RLock()` inside the
contact loop; a `sync.RWMutex` read lock taken while the same goroutine
holds the write lock blocks forever.  Registering `"u"`, whose contact
`"v"` is online, deadlocks the hub and `"v"`'s buffer stays empty. -/
theorem register_presence_deadlock :
    contactsOf envContactVU "u" = ["v"] ∧
    afind "v" stateVOnly.clients = some clientV ∧
    (registerClient envContactVU stateVOnly clientOld 7).status = .deadlocked ∧
    getChan (registerClient envContactVU stateVOnly clientOld 7) clientV.cid = newChan := by
  refine ⟨rfl, rfl, rfl, rfl⟩

/-- C7: one iteration of the inbound loop leaves the hub state unchanged
and the connection open both for a frame that fails to decode and for a
decoded frame whose event type is neither `typing_start` nor
`typing_stop`; hub routing can therefore only be triggered by the two
typing event types. -/
theorem inbound_frames_gated (env : Env) (s : HubState) (c : Client) (m : IncomingMessage)
    (now : Time) (h₁ : m.type ≠ EventTypingStart) (h₂ : m.type ≠ EventTypingStop) :
    readPumpStep env s c (.frame none) now = { state := s, exited := false } ∧
    readPumpStep env s c (.frame (some m)) now = { state := s, exited := false } := by
  refine ⟨rfl, ?_⟩
  simp [readPumpStep, handleIncomingMessage, h₁, h₂]

/-- Witness for C7: a malformed frame and a `connect` frame both leave a
concrete hub state unchanged with the connection open. -/
theorem inbound_frames_gated_witness :
    readPumpStep emptyEnv stateVOnly clientOld (.frame none) 3 =
      { state := stateVOnly, exited := false } ∧
    readPumpStep emptyEnv stateVOnly clientOld
        (.frame (some { type := EventConnect, payload := [] })) 3 =
      { state := stateVOnly, exited := false } :=
  inbound_frames_gated emptyEnv stateVOnly clientOld { type := EventConnect, payload := [] } 3
    (by decide) (by decide)

/-- C10: `SendMessage` returns an error exactly when serialization
fails (which never happens for the payload record types); with the open
buffer full it returns no error even though the frame is dropped, the
buffer is closed and one unregister request is issued, and with room it
returns no error and enqueues — so the return value cannot distinguish
the two outcomes. -/
theorem send_message_error_semantics (ch : ChanState) (msg : WSMessage)
    (hopen : ch.closed = false) :
    ((SendMessage ch msg).err.isSome ↔ (marshalWS msg).isOk = false) ∧
    (chanCap ≤ ch.buf.length →
      SendMessage ch msg =
        { chan := { buf := ch.buf, closed := true }, unregRequested := true, err := none,
          panicked := false }) ∧
    (ch.buf.length < chanCap →
      SendMessage ch msg =
        { chan := { buf := ch.buf ++ [msg], closed := false }, unregRequested := false,
          err := none, panicked := false }) := by
  refine ⟨?_, ?_, ?_⟩
  · by_cases hlt : ch.buf.length < chanCap <;>
      simp [SendMessage, marshalWS, hopen, hlt, Except.isOk, Except.toBool]
  · intro hfull
    have hnot : ¬ ch.buf.length < chanCap := by omega
    simp [SendMessage, marshalWS, hopen, hnot]
  · intro hlt
    simp [SendMessage, marshalWS, hopen, hlt]

/-- Witness for C10: on the concrete full open buffer, `SendMessage`
drops the frame, closes the buffer, requests unregistration and returns
no error. -/
theorem send_message_error_semantics_witness :
    SendMessage fullChan sampleMsg =
      { chan := { buf := fullChan.buf, closed := true }, unregRequested := true, err := none,
        panicked := false } :=
  (send_message_error_semantics fullChan sampleMsg rfl).2.1
    (le_of_eq (by simp [fullChan]))

/-- C4 amended: `BroadcastToUser(U, e)` delivers `e` to U's buffer iff U
is present in the registry AND U's buffer is open with free space: when
U is absent the call returns with the state unchanged (no buffer
anywhere receives `e`); when U is present with an open non-full buffer
exactly U's buffer receives `e`; when U is present with an open full
buffer the frame is dropped and the state is unchanged. -/
theorem broadcast_user_amended (s : HubState) (userID : String) (e : WSMessage)
    (hok : s.status = .ok) (hlock : s.writeLocked = false) :
    (afind userID s.clients = none → BroadcastToUser s userID e = s) ∧
    (∀ cl : Client, afind userID s.clients = some cl →
      (getChan s cl.cid).closed = false →
      ((getChan s cl.cid).buf.length < chanCap →
        BroadcastToUser s userID e =
          setChan s cl.cid { buf := (getChan s cl.cid).buf ++ [e], closed := false }) ∧
      (chanCap ≤ (getChan s cl.cid).buf.length → BroadcastToUser s userID e = s)) := by
  constructor
  · intro hnone
    simp [BroadcastToUser, hok, hlock, hnone]
  · intro cl hfind hopen
    constructor
    · intro hlt
      simp [BroadcastToUser, hok, hlock, hfind, marshalWS, trySend, hopen, hlt]
    · intro hge
      have hnot : ¬ (getChan s cl.cid).buf.length < chanCap := by omega
      simp [BroadcastToUser, hok, hlock, hfind, marshalWS, trySend, hopen, hnot]

/-- Witness for C4's amended theorem: broadcasting to the registered
user `"v"` with a fresh buffer appends exactly one frame to `"v"`'s
buffer. -/
theorem broadcast_user_amended_witness :
    BroadcastToUser stateVOnly "v" sampleMsg =
      setChan stateVOnly clientV.cid
        { buf := (getChan stateVOnly clientV.cid).buf ++ [sampleMsg], closed := false } :=
  (((broadcast_user_amended stateVOnly "v" sampleMsg rfl rfl).2 clientV rfl) rfl).1
    (by decide)

/-- Extensionality helper: re-setting an already-false lock leaves the
state unchanged. -/
theorem hubState_unlock_eq (r : HubState) (h : r.writeLocked = false) :
    ({ r with writeLocked := false } : HubState) = r := by
  cases r
  simp_all

/-- C1 amended: `Unregister(c)` removes the map entry for `c`'s user id
whenever any entry exists for that id — there is no identity comparison,
so a newer Client's entry is removed just the same — and it closes `c`'s
own outbound buffer. -/
theorem unregister_removes_any_entry (env : Env) (s : HubState) (c cOld : Client)
    (now : Time) (hok : s.status = .ok) (hlock : s.writeLocked = false)
    (hfind : afind c.id s.clients = some cOld)
    (hopen : (getChan s c.cid).closed = false) :
    afind c.id (unregisterClient env s c now).clients = none ∧
    (getChan (unregisterClient env s c now) c.cid).closed = true := by
  constructor
  · rw [(unregisterClient_found env s c cOld now hok hlock hfind).1]
    exact afind_aerase_self ..
  · exact unregisterClient_found_closes env s c cOld now hok hlock hfind hopen

/-- Witness for C1's amended theorem: unregistering `clientOld` while
the entry points at `clientNew` removes the entry and closes
`clientOld`'s buffer. -/
theorem unregister_removes_any_entry_witness :
    afind clientOld.id (unregisterClient emptyEnv stateNewRegistered clientOld 5).clients
      = none ∧
    (getChan (unregisterClient emptyEnv stateNewRegistered clientOld 5)
      clientOld.cid).closed = true :=
  unregister_removes_any_entry emptyEnv stateNewRegistered clientOld clientNew 5
    rfl rfl rfl rfl

/-- C5: after a first `Unregister(c)` that found and removed an entry, a
second `Unregister(c)` on the resulting state changes nothing — the hub
map, every buffer and the store flags are exactly those of the first
call's result. -/
theorem unregister_idempotent (env : Env) (s : HubState) (c cOld : Client)
    (now now₂ : Time) (hok : s.status = .ok) (hlock : s.writeLocked = false)
    (hfind : afind c.id s.clients = some cOld) :
    unregisterClient env (unregisterClient env s c now) c now₂ =
      unregisterClient env s c now := by
  by_cases hst : (unregisterClient env s c now).status = .ok
  · have h1 := unregisterClient_found env s c cOld now hok hlock hfind
    have hwl : (unregisterClient env s c now).writeLocked = false := h1.2 hst
    have hnone : afind c.id (unregisterClient env s c now).clients = none := by
      rw [h1.1]
      exact afind_aerase_self ..
    rw [unregisterClient_absent env _ c now₂ hst hwl hnone]
    exact hubState_unlock_eq _ hwl
  · exact unregisterClient_notOk env _ c now₂ hst

/-- Witness for C5: on the concrete state the second unregister call
returns the first call's result unchanged. -/
theorem unregister_idempotent_witness :
    unregisterClient emptyEnv (unregisterClient emptyEnv stateNewRegistered clientOld 5)
        clientOld 6 =
      unregisterClient emptyEnv stateNewRegistered clientOld 5 :=
  unregister_idempotent emptyEnv stateNewRegistered clientOld clientNew 5 6 rfl rfl rfl

/-- When a Client already occupies the user id slot and its channel is
open, `registerClient` closes the old Client's channel and replaces the
map entry with the new Client. -/
theorem registerClient_replaces (env : Env) (s : HubState) (c₁ c₂ : Client) (now : Time)
    (hok : s.status = .ok) (hlock : s.writeLocked = false)
    (hfind : afind c₂.id s.clients = some c₁)
    (hopen : (getChan s c₁.cid).closed = false) :
    (registerClient env s c₂ now).clients = aput c₂.id c₂ s.clients ∧
    (getChan (registerClient env s c₂ now) c₁.cid).closed = true := by
  unfold registerClient
  rw [if_neg (show ¬ s.status ≠ ExecStatus.ok from by simp [hok]),
    if_neg (show ¬ s.writeLocked = true from by simp [hlock])]
  dsimp only
  rw [hfind]
  dsimp only
  set s₁ : HubState := { s with writeLocked := true } with hs₁
  have h1ch : getChan s₁ c₁.cid = getChan s c₁.cid := rfl
  unfold closeChan
  rw [h1ch]
  dsimp only
  rw [if_neg (show ¬ (getChan s c₁.cid).closed = true from by simp [hopen])]
  rw [if_neg (show ¬ (setChan s₁ c₁.cid
    { buf := (getChan s c₁.cid).buf, closed := true }).status ≠ ExecStatus.ok from by
      simp only [ne_eq, not_not]
      exact hok)]
  have hclosed : (getChan (setOnlineFlag
      { s with clients := aput c₂.id c₂ s.clients,
               chans := aput c₁.cid { buf := (getChan s c₁.cid).buf, closed := true } s.chans,
               writeLocked := true } c₂.id true) c₁.cid).closed = true := by
    show ((afind c₁.cid (aput c₁.cid { buf := (getChan s c₁.cid).buf, closed := true }
      s.chans)).getD newChan).closed = true
    rw [afind_aput_self]
    rfl
  split
  · next hbad =>
    constructor
    · rw [broadcastPresence_clients]
      simp [setOnlineFlag, setChan, hs₁]
    · exact broadcastPresence_closed_preserved _ _ _ _ hclosed
  · constructor
    · dsimp only
      rw [broadcastPresence_clients]
      simp [setOnlineFlag, setChan, hs₁]
    · exact broadcastPresence_closed_preserved _ _ _ _ hclosed

/-- C3: registering a second Client `c₂` for a user id currently held by
the active Client `c₁` leaves exactly one registry entry for that id,
pointing at `c₂`, and closes `c₁`'s outbound buffer. -/
theorem register_second_connection (env : Env) (s : HubState) (c₁ c₂ : Client) (now : Time)
    (hok : s.status = .ok) (hlock : s.writeLocked = false)
    (hnodup : (s.clients.map Prod.fst).Nodup)
    (hfind : afind c₂.id s.clients = some c₁)
    (hopen : (getChan s c₁.cid).closed = false) :
    afind c₂.id (registerClient env s c₂ now).clients = some c₂ ∧
    akeyCount c₂.id (registerClient env s c₂ now).clients = 1 ∧
    (getChan (registerClient env s c₂ now) c₁.cid).closed = true := by
  obtain ⟨hcl, hch⟩ := registerClient_replaces env s c₁ c₂ now hok hlock hfind hopen
  refine ⟨?_, ?_, hch⟩
  · rw [hcl]
    exact afind_aput_self ..
  · rw [hcl]
    have hpos := akeyCount_pos_of_afind hfind
    have hle := akeyCount_le_one_of_nodup c₂.id hnodup
    rw [akeyCount_aput_pos _ _ hpos]
    omega

/-- Witness for C3: registering `clientOld` over the slot held by
`clientNew` leaves one entry pointing at `clientOld` and closes
`clientNew`'s buffer. -/
theorem register_second_connection_witness :
    afind clientOld.id (registerClient emptyEnv stateNewRegistered clientOld 5).clients
      = some clientOld ∧
    akeyCount clientOld.id (registerClient emptyEnv stateNewRegistered clientOld 5).clients
      = 1 ∧
    (getChan (registerClient emptyEnv stateNewRegistered clientOld 5)
      clientNew.cid).closed = true :=
  register_second_connection emptyEnv stateNewRegistered clientNew clientOld 5
    rfl rfl (by decide) rfl rfl

/-- Distinct keys of an association list with pairwise-distinct client
object ids find clients with distinct object ids. -/
theorem afind_cid_inj {l : List (String × Client)}
    (hcid : (l.map (fun p => p.2.cid)).Nodup) {u₁ u₂ : String} {c₁ c₂ : Client}
    (h₁ : afind u₁ l = some c₁) (h₂ : afind u₂ l = some c₂) (hne : u₁ ≠ u₂) :
    c₁.cid ≠ c₂.cid := by
  intro hcc
  have heq := List.inj_on_of_nodup_map hcid (afind_mem h₁) (afind_mem h₂) hcc
  exact hne (congrArg Prod.fst heq)

/-- Behaviour of the member loop of `BroadcastToGroup` over a
duplicate-free member list on a healthy state whose eligible recipients
all have open buffers (a select send case on a closed channel would
panic): each registered member other than the excluded id gets the frame
appended exactly once when its buffer has room, keeps its buffer
unchanged when its buffer is full, and everything else is untouched. -/
theorem groupFold_spec (d : WireData) (S : String) (L : List String) (s : HubState)
    (hok : s.status = .ok) (hL : L.Nodup)
    (hcid : (s.clients.map (fun p => p.2.cid)).Nodup)
    (hopen : ∀ uid ∈ L, uid ≠ S → ∀ cl, afind uid s.clients = some cl →
      (getChan s cl.cid).closed = false) :
    (L.foldl (sendToMember d S) s).clients = s.clients ∧
    (L.foldl (sendToMember d S) s).status = .ok ∧
    (L.foldl (sendToMember d S) s).online = s.online ∧
    (L.foldl (sendToMember d S) s).writeLocked = s.writeLocked ∧
    (∀ uid cl, afind uid s.clients = some cl →
      getChan (L.foldl (sendToMember d S) s) cl.cid =
        (if uid ∈ L ∧ uid ≠ S ∧ (getChan s cl.cid).buf.length < chanCap then
          { buf := (getChan s cl.cid).buf ++ [d], closed := false }
        else getChan s cl.cid)) ∧
    (∀ cid : Nat, (∀ uid cl, afind uid s.clients = some cl → cl.cid ≠ cid) →
      getChan (L.foldl (sendToMember d S) s) cid = getChan s cid) := by
  induction L generalizing s with
  | nil =>
    refine ⟨rfl, hok, rfl, rfl, fun uid cl h => by simp, fun cid h => rfl⟩
  | cons uid₀ t ih =>
    rw [List.foldl_cons]
    by_cases hS : uid₀ = S
    · have hstep : sendToMember d S s uid₀ = s := by
        unfold sendToMember
        rw [if_neg (show ¬ s.status ≠ ExecStatus.ok from by simp [hok]), if_pos hS]
      rw [hstep]
      obtain ⟨ih1, ih2, ih3, ih4, ih5, ih6⟩ := ih s hok hL.of_cons hcid
        (fun uid hu hne cl hf => hopen uid (List.mem_cons_of_mem _ hu) hne cl hf)
      refine ⟨ih1, ih2, ih3, ih4, ?_, ih6⟩
      intro uid cl hf
      rw [ih5 uid cl hf]
      by_cases ht : uid ∈ t ∧ uid ≠ S ∧ (getChan s cl.cid).buf.length < chanCap
      · rw [if_pos ht, if_pos ⟨List.mem_cons_of_mem _ ht.1, ht.2⟩]
      · have hnot : ¬ (uid ∈ uid₀ :: t ∧ uid ≠ S ∧
            (getChan s cl.cid).buf.length < chanCap) := by
          rintro ⟨hmem, hne, hlen⟩
          rcases List.mem_cons.mp hmem with h | h
          · exact hne (h.trans hS)
          · exact ht ⟨h, hne, hlen⟩
        rw [if_neg ht, if_neg hnot]
    · rcases hfind₀ : afind uid₀ s.clients with _ | cl₀
      · have hstep : sendToMember d S s uid₀ = s := by
          unfold sendToMember
          rw [if_neg (show ¬ s.status ≠ ExecStatus.ok from by simp [hok]), if_neg hS,
            hfind₀]
        rw [hstep]
        obtain ⟨ih1, ih2, ih3, ih4, ih5, ih6⟩ := ih s hok hL.of_cons hcid
          (fun uid hu hne cl hf => hopen uid (List.mem_cons_of_mem _ hu) hne cl hf)
        refine ⟨ih1, ih2, ih3, ih4, ?_, ih6⟩
        intro uid cl hf
        rw [ih5 uid cl hf]
        by_cases ht : uid ∈ t ∧ uid ≠ S ∧ (getChan s cl.cid).buf.length < chanCap
        · rw [if_pos ht, if_pos ⟨List.mem_cons_of_mem _ ht.1, ht.2⟩]
        · have hnot : ¬ (uid ∈ uid₀ :: t ∧ uid ≠ S ∧
              (getChan s cl.cid).buf.length < chanCap) := by
            rintro ⟨hmem, hne, hlen⟩
            rcases List.mem_cons.mp hmem with h | h
            · rw [h] at hf
              rw [hfind₀] at hf
              cases hf
            · exact ht ⟨h, hne, hlen⟩
          rw [if_neg ht, if_neg hnot]
      · have ho := hopen uid₀ (List.mem_cons_self ..) hS cl₀ hfind₀
        by_cases hfull : (getChan s cl₀.cid).buf.length < chanCap
        · have hstep : sendToMember d S s uid₀ =
              setChan s cl₀.cid { buf := (getChan s cl₀.cid).buf ++ [d], closed := false } := by
            unfold sendToMember trySend
            rw [if_neg (show ¬ s.status ≠ ExecStatus.ok from by simp [hok]), if_neg hS,
              hfind₀]
            dsimp only
            rw [if_neg (show ¬ (getChan s cl₀.cid).closed = true from by simp [ho]),
              if_pos hfull]
            have hch :
                ({ buf := (getChan s cl₀.cid).buf ++ [d],
                   closed := (getChan s cl₀.cid).closed } : ChanState) =
                { buf := (getChan s cl₀.cid).buf ++ [d], closed := false } := by
              rw [ho]
            rw [hch]
          rw [hstep]
          have huid₀t : uid₀ ∉ t := (List.nodup_cons.mp hL).1
          have hopen₂ : ∀ uid ∈ t, uid ≠ S → ∀ cl,
              afind uid (setChan s cl₀.cid
                { buf := (getChan s cl₀.cid).buf ++ [d], closed := false }).clients
                = some cl →
              (getChan (setChan s cl₀.cid
                { buf := (getChan s cl₀.cid).buf ++ [d], closed := false }) cl.cid).closed
                  = false := by
            intro uid hu hne cl hf
            have hf₂ : afind uid s.clients = some cl := hf
            have hneu : uid ≠ uid₀ := fun h => huid₀t (h ▸ hu)
            have hnecid : cl.cid ≠ cl₀.cid := afind_cid_inj hcid hf₂ hfind₀ hneu
            rw [getChan_setChan, if_neg (fun h => hnecid h.symm)]
            exact hopen uid (List.mem_cons_of_mem _ hu) hne cl hf₂
          have hok₂ : (setChan s cl₀.cid
              { buf := (getChan s cl₀.cid).buf ++ [d], closed := false }).status = .ok := hok
          have hcid₂ : ((setChan s cl₀.cid
              { buf := (getChan s cl₀.cid).buf ++ [d], closed := false }).clients.map
                (fun p => p.2.cid)).Nodup := hcid
          obtain ⟨ih1, ih2, ih3, ih4, ih5, ih6⟩ := ih _ hok₂ hL.of_cons hcid₂ hopen₂
          refine ⟨ih1, ih2, ih3, ih4, ?_, ?_⟩
          · intro uid cl hf
            have hf₂ : afind uid (setChan s cl₀.cid
                { buf := (getChan s cl₀.cid).buf ++ [d], closed := false }).clients
                = some cl := hf
            rw [ih5 uid cl hf₂]
            by_cases huid : uid = uid₀
            · subst huid
              have hcl : cl = cl₀ := by
                rw [hfind₀] at hf
                exact ((Option.some.injEq _ _).mp hf).symm
              subst hcl
              rw [if_neg (fun h => huid₀t h.1)]
              rw [getChan_setChan, if_pos rfl]
              rw [if_pos ⟨List.mem_cons_self .., hS, hfull⟩]
            · have hnecid : cl.cid ≠ cl₀.cid := afind_cid_inj hcid hf hfind₀ huid
              have hgc : getChan (setChan s cl₀.cid
                  { buf := (getChan s cl₀.cid).buf ++ [d], closed := false }) cl.cid
                  = getChan s cl.cid := by
                rw [getChan_setChan, if_neg (fun h => hnecid h.symm)]
              rw [hgc]
              by_cases ht : uid ∈ t ∧ uid ≠ S ∧ (getChan s cl.cid).buf.length < chanCap
              · rw [if_pos ht, if_pos ⟨List.mem_cons_of_mem _ ht.1, ht.2⟩]
              · have hnot : ¬ (uid ∈ uid₀ :: t ∧ uid ≠ S ∧
                    (getChan s cl.cid).buf.length < chanCap) := by
                  rintro ⟨hmem, hne, hlen⟩
                  rcases List.mem_cons.mp hmem with h | h
                  · exact huid h
                  · exact ht ⟨h, hne, hlen⟩
                rw [if_neg ht, if_neg hnot]
          · intro cid hno
            have hno₂ : ∀ uid cl, afind uid (setChan s cl₀.cid
                { buf := (getChan s cl₀.cid).buf ++ [d], closed := false }).clients
                = some cl → cl.cid ≠ cid := fun uid cl hf => hno uid cl hf
            rw [ih6 cid hno₂]
            rw [getChan_setChan, if_neg (fun h => hno uid₀ cl₀ hfind₀ h)]
        · have hstep : sendToMember d S s uid₀ = s := by
            unfold sendToMember trySend
            rw [if_neg (show ¬ s.status ≠ ExecStatus.ok from by simp [hok]), if_neg hS,
              hfind₀]
            dsimp only
            rw [if_neg (show ¬ (getChan s cl₀.cid).closed = true from by simp [ho]),
              if_neg hfull]
          rw [hstep]
          obtain ⟨ih1, ih2, ih3, ih4, ih5, ih6⟩ := ih s hok hL.of_cons hcid
            (fun uid hu hne cl hf => hopen uid (List.mem_cons_of_mem _ hu) hne cl hf)
          refine ⟨ih1, ih2, ih3, ih4, ?_, ih6⟩
          intro uid cl hf
          rw [ih5 uid cl hf]
          by_cases ht : uid ∈ t ∧ uid ≠ S ∧ (getChan s cl.cid).buf.length < chanCap
          · rw [if_pos ht, if_pos ⟨List.mem_cons_of_mem _ ht.1, ht.2⟩]
          · have hnot : ¬ (uid ∈ uid₀ :: t ∧ uid ≠ S ∧
                (getChan s cl.cid).buf.length < chanCap) := by
              rintro ⟨hmem, hne, hlen⟩
              rcases List.mem_cons.mp hmem with h | h
              · have hcl : cl = cl₀ := by
                  rw [h] at hf
                  rw [hfind₀] at hf
                  exact ((Option.some.injEq _ _).mp hf).symm
                apply hfull
                rw [← hcl]
                exact hlen
              · exact ht ⟨h, hne, hlen⟩
            rw [if_neg ht, if_neg hnot]

/-- C6 amended: on a healthy hub state where every registered member of
G other than S has an open buffer, `BroadcastToGroup(G, e, S)` delivers
exactly one copy of the serialized event to the buffer of every
currently-registered member of G other than S whose buffer is not full,
leaves a full member's buffer unchanged (the non-blocking push drops the
frame), and touches no other Client's buffer — in particular never S's,
even when S is a registered member. -/
theorem broadcast_group_amended (env : Env) (s : HubState) (G : String) (e : WSMessage)
    (S : String) (hok : s.status = .ok) (hlock : s.writeLocked = false)
    (hL : (membersOf env G).Nodup)
    (hcid : (s.clients.map (fun p => p.2.cid)).Nodup)
    (hopen : ∀ uid ∈ membersOf env G, uid ≠ S → ∀ cl, afind uid s.clients = some cl →
      (getChan s cl.cid).closed = false) :
    (BroadcastToGroup env s G e S).clients = s.clients ∧
    (∀ uid cl, afind uid s.clients = some cl →
      getChan (BroadcastToGroup env s G e S) cl.cid =
        (if uid ∈ membersOf env G ∧ uid ≠ S ∧
            (getChan s cl.cid).buf.length < chanCap then
          { buf := (getChan s cl.cid).buf ++ [e], closed := false }
        else getChan s cl.cid)) ∧
    (∀ cid : Nat, (∀ uid cl, afind uid s.clients = some cl → cl.cid ≠ cid) →
      getChan (BroadcastToGroup env s G e S) cid = getChan s cid) := by
  obtain ⟨h1, h2, h3, h4, h5, h6⟩ :=
    groupFold_spec e S (membersOf env G) s hok hL hcid hopen
  have heq : BroadcastToGroup env s G e S =
      (membersOf env G).foldl (sendToMember e S) s := by
    unfold BroadcastToGroup marshalWS
    dsimp only
    rw [if_neg (show ¬ s.status ≠ ExecStatus.ok from by simp [hok]),
      if_neg (show ¬ s.writeLocked = true from by simp [hlock])]
  rw [heq]
  exact ⟨h1, h5, h6⟩

/-- Witness for C6's amended theorem, on a mixed state: group `"g"` has
the registered members `"u"` (full open buffer) and `"v"` (fresh
buffer); one broadcast leaves `"u"`'s buffer unchanged and appends
exactly one frame to `"v"`'s buffer. -/
theorem broadcast_group_amended_witness :
    getChan (BroadcastToGroup envGroupUV stateMixed "g" sampleMsg "z") clientOld.cid
      = getChan stateMixed clientOld.cid ∧
    getChan (BroadcastToGroup envGroupUV stateMixed "g" sampleMsg "z") clientV.cid
      = { buf := (getChan stateMixed clientV.cid).buf ++ [sampleMsg],
          closed := false } := by
  have hopen : ∀ uid ∈ membersOf envGroupUV "g", uid ≠ "z" → ∀ cl,
      afind uid stateMixed.clients = some cl →
      (getChan stateMixed cl.cid).closed = false := by
    intro uid hu hne cl hf
    have huid : uid = "u" ∨ uid = "v" := by
      simpa [membersOf, envGroupUV] using hu
    rcases huid with h | h
    · subst h
      have h2 : afind "u" stateMixed.clients = some clientOld := rfl
      rw [h2] at hf
      have hcl : cl = clientOld := ((Option.some.injEq _ _).mp hf).symm
      subst hcl
      rfl
    · subst h
      have h2 : afind "v" stateMixed.clients = some clientV := rfl
      rw [h2] at hf
      have hcl : cl = clientV := ((Option.some.injEq _ _).mp hf).symm
      subst hcl
      rfl
  have h := (broadcast_group_amended envGroupUV stateMixed "g" sampleMsg "z"
    rfl rfl (by decide) (by decide) hopen).2.1
  refine ⟨?_, ?_⟩
  · have h1 := h "u" clientOld rfl
    rw [if_neg (show ¬ ("u" ∈ membersOf envGroupUV "g" ∧ "u" ≠ "z" ∧
        (getChan stateMixed clientOld.cid).buf.length < chanCap) from by decide)] at h1
    exact h1
  · have h2 := h "v" clientV rfl
    rw [if_pos (show "v" ∈ membersOf envGroupUV "g" ∧ "v" ≠ "z" ∧
        (getChan stateMixed clientV.cid).buf.length < chanCap from by decide)] at h2
    exact h2

/-- C9: the typing relay takes the user id of the outbound typing
payload from the Client's own identity, never from the wire — two
inbound payloads that agree on `chatId` and `groupId` (so in particular
two payloads differing only in a wire-supplied user id field) produce
identical results for both typing handlers — and in the direct-chat
scenario the registered peer's buffer receives exactly one
`typing_start` envelope whose payload user id is the sender's own id. -/
theorem typing_payload_from_client_identity :
    (∀ (env : Env) (s : HubState) (c : Client) (p₁ p₂ : List (String × JValue))
      (now : Time),
      asString p₁ "chatId" = asString p₂ "chatId" →
      asString p₁ "groupId" = asString p₂ "groupId" →
      handleTypingStart env s c p₁ now = handleTypingStart env s c p₂ now ∧
      handleTypingStop env s c p₁ now = handleTypingStop env s c p₂ now) ∧
    (∀ (env : Env) (s : HubState) (A B : Client) (payload : List (String × JValue))
      (now : Time),
      s.status = .ok → s.writeLocked = false →
      afind B.id s.clients = some B →
      (getChan s B.cid).closed = false →
      (getChan s B.cid).buf.length < chanCap →
      asString payload "chatId" = B.id →
      asString payload "groupId" = "" →
      B.id ≠ "" →
      getChan (handleTypingStart env s A payload now) B.cid =
        { buf := (getChan s B.cid).buf ++
            [{ type := EventTypingStart
               payload := Payload.typing
                 { userID := A.id, chatID := B.id, groupID := "", userName := "" }
               timestamp := now }]
          closed := false }) := by
  constructor
  · intro env s c p₁ p₂ now h₁ h₂
    constructor
    · unfold handleTypingStart
      rw [h₁, h₂]
    · unfold handleTypingStop
      rw [h₁, h₂]
  · intro env s A B payload now hok hlock hfind hopenB hlen hchat hgrp hBne
    unfold handleTypingStart
    rw [hchat, hgrp]
    dsimp only
    rw [if_neg (show ¬ ("" : String) ≠ "" from by simp)]
    rw [if_pos hBne]
    unfold BroadcastToUsers marshalWS
    dsimp only
    rw [if_neg (show ¬ s.status ≠ ExecStatus.ok from by simp [hok]),
      if_neg (show ¬ s.writeLocked = true from by simp [hlock])]
    rw [List.foldl_cons, List.foldl_nil]
    unfold sendToUser
    rw [if_neg (show ¬ s.status ≠ ExecStatus.ok from by simp [hok])]
    rw [hfind]
    dsimp only
    unfold trySend
    rw [if_neg (show ¬ (getChan s B.cid).closed = true from by simp [hopenB]),
      if_pos hlen]
    rw [getChan_setChan, if_pos rfl]
    dsimp only
    rw [hopenB]

/-- Witness for C9: `clientV` relays a `typing_start` whose wire payload
carries a forged user id; the registered peer `"u"` receives exactly one
envelope whose user id is `clientV`'s own. -/
theorem typing_payload_from_client_identity_witness :
    getChan (handleTypingStart emptyEnv stateNewRegistered clientV
        [("chatId", JValue.str "u"), ("userId", JValue.str "EVIL")] 9) clientNew.cid =
      { buf := (getChan stateNewRegistered clientNew.cid).buf ++
          [{ type := EventTypingStart
             payload := Payload.typing
               { userID := clientV.id, chatID := clientNew.id, groupID := "",
                 userName := "" }
             timestamp := 9 }]
        closed := false } :=
  typing_payload_from_client_identity.2 emptyEnv stateNewRegistered clientV clientNew
    [("chatId", JValue.str "u"), ("userId", JValue.str "EVIL")] 9 rfl rfl rfl rfl
    (by decide) rfl rfl (by decide)

end Kabarin
